import Mathlib

/-!
Verification of `src/PubSub.h`: the class `awkward::PubSub<EventName, EventArgs...>`,
a publish/subscribe registry built on `std::unordered_multimap<EventName, Callback>`
with the operations `emit` (publish), `on` (subscribe) and `off` (unsubscribe).

Modelling choices:
* The member `std::unordered_multimap<EventName, Callback> callbacks` is modelled
  as the list of its `(key, callback)` entries.  The multimap keeps entries with
  equal keys adjacent; `emplace` is modelled as adding the new entry at the end of
  its key's group (insertion order — the within-group position the container of the
  source's native toolchain produces and the order the header's usage documentation
  relies on), so `equal_range` yields the callbacks of a key in registration order.
* A callback `std::function<void(EventName, EventArgs...)>` is modelled as a
  function `E → σ → Except ε σ`: it receives the event name and acts on a world
  `σ` in which the forwarded arguments and any handler-visible state live, and it
  may throw an exception of type `ε`.  The loop of `emit` forwards the same
  argument objects to every callback and lets an exception escape, so the model
  threads the single world through the callbacks in order and aborts on an error.
-/

set_option autoImplicit false

namespace Awkward

variable {E C : Type} {σ ε : Type}

/-- Embedding of the class state: the member
`std::unordered_multimap<EventName, Callback> callbacks`, which "holds all pairs
EventName -> Callback" (src/PubSub.h, line 90), as the list of its entries. -/
structure PubSub (E C : Type) where
  callbacks : List (E × C)

/-- Freshly constructed bus (`PubSub()`, line 96): no subscriptions. -/
def PubSub.empty : PubSub E C := ⟨[]⟩

/-- Model of `this->callbacks.count(eventName)` (line 142): the number of
entries stored under the key. -/
def PubSub.count [DecidableEq E] (b : PubSub E C) (k : E) : Nat :=
  b.callbacks.countP (fun p => decide (p.1 = k))

/-- Model of `this->callbacks.equal_range(eventName)` (line 109): the callbacks
stored under the key, in container order. -/
def PubSub.equalRange [DecidableEq E] (b : PubSub E C) (k : E) : List C :=
  (b.callbacks.filter (fun p => decide (p.1 = k))).map Prod.snd

/-- Model of `on` (lines 129-132): `this->callbacks.emplace(eventName, callback)`
adds a new (key, callback) entry; no existing entry is replaced or removed. -/
def PubSub.on (b : PubSub E C) (k : E) (c : C) : PubSub E C :=
  ⟨b.callbacks ++ [(k, c)]⟩

/-- Model of `off` (lines 140-145): when `count(eventName)` is nonzero,
`this->callbacks.erase(eventName)` removes every entry stored under the key;
otherwise nothing happens. -/
def PubSub.off [DecidableEq E] (b : PubSub E C) (k : E) : PubSub E C :=
  if b.count k ≠ 0 then ⟨b.callbacks.filter (fun p => decide (p.1 ≠ k))⟩ else b

/-- Body of the loop of `emit` (lines 110-114): invoke each callback of the
equal range in order, passing the event name and threading the one shared world
(the forwarded arguments live in it); a thrown exception aborts the loop and
escapes to the caller. -/
def runCallbacks (k : E) : List (E → σ → Except ε σ) → σ → Except ε σ
  | [], s => Except.ok s
  | c :: rest, s => (c k s).bind (runCallbacks k rest)

/-- Model of `emit` (lines 106-115): take the equal range of the event name and
run its callbacks in order on the world; the method body never touches the
`callbacks` member, so the bus is returned as it was. -/
def PubSub.emit [DecidableEq E] (b : PubSub E (E → σ → Except ε σ)) (k : E)
    (s : σ) : Except ε σ × PubSub E (E → σ → Except ε σ) :=
  (runCallbacks k (b.equalRange k) s, b)

/-- Model of repeatedly calling `on` under one key, with the callbacks of a
list, in list order. -/
def PubSub.onAll (b : PubSub E C) (k : E) : List C → PubSub E C
  | [] => b
  | c :: cs => (b.on k c).onAll k cs

/-- Modelled from the spec: the argument-passing policy (a) of §4.1, which the
specification mandates and the source does not implement — each handler
invocation receives an independent copy of the pre-publish argument values.
Here every callback is applied to the original world instead of the world left
behind by the callbacks before it. -/
def emitCopyPolicy (cbs : List (E → σ → Except ε σ)) (k : E) (s : σ) :
    List (Except ε σ) :=
  cbs.map (fun c => c k s)

/-- Callback for concrete tests: appends its tag to the world's log. -/
def logCb (i : Nat) : Nat → List Nat → Except Empty (List Nat) :=
  fun _ l => Except.ok (l ++ [i])

/-- Callback world for the shared-argument scenario: a mutable `Nat` argument
together with an observation log. -/
abbrev MutWorld := Nat × List Nat

/-- Handler that records the value of the mutable argument it is handed and
then increments that argument in place. -/
def observeThenIncr : Nat → MutWorld → Except Empty MutWorld :=
  fun _ p => Except.ok (p.1 + 1, p.2 ++ [p.1])

/-- Handler that only records the value of the mutable argument it is handed. -/
def observeOnly : Nat → MutWorld → Except Empty MutWorld :=
  fun _ p => Except.ok (p.1, p.2 ++ [p.1])

/-- Callback for the failure scenario: appends its tag to the log. -/
def okCb (i : Nat) : Nat → List Nat → Except Nat (List Nat) :=
  fun _ l => Except.ok (l ++ [i])

/-- Callback for the failure scenario: throws the error 7. -/
def failCb : Nat → List Nat → Except Nat (List Nat) :=
  fun _ _ => Except.error 7

theorem except_bind_ok {α : Type} (x : Except ε α) : x.bind Except.ok = x := by
  cases x <;> rfl

theorem equalRange_on_self [DecidableEq E] (b : PubSub E C) (k : E) (c : C) :
    (b.on k c).equalRange k = b.equalRange k ++ [c] := by
  simp [PubSub.on, PubSub.equalRange, List.filter_append]

theorem equalRange_on_of_ne [DecidableEq E] (b : PubSub E C) {k k₀ : E}
    (c : C) (h : k₀ ≠ k) : (b.on k c).equalRange k₀ = b.equalRange k₀ := by
  simp [PubSub.on, PubSub.equalRange, List.filter_append, Ne.symm h]

theorem count_eq_length_equalRange [DecidableEq E] (b : PubSub E C) (k : E) :
    b.count k = (b.equalRange k).length := by
  simp [PubSub.count, PubSub.equalRange, List.countP_eq_length_filter]

theorem off_of_equalRange_nil [DecidableEq E] {b : PubSub E C} {k : E}
    (h : b.equalRange k = []) : b.off k = b := by
  have hc : b.count k = 0 := by
    rw [count_eq_length_equalRange, h]; rfl
  simp [PubSub.off, hc]

theorem equalRange_off_self [DecidableEq E] (b : PubSub E C) (k : E) :
    (b.off k).equalRange k = [] := by
  by_cases h : b.count k = 0
  · have : b.equalRange k = [] := by
      have := count_eq_length_equalRange b k
      rw [h] at this
      exact List.length_eq_zero.mp this.symm
    rw [off_of_equalRange_nil this, this]
  · simp only [PubSub.off, h, ne_eq, not_false_iff, if_pos, PubSub.equalRange]
    rw [List.filter_filter]
    have : ∀ p : E × C, (decide (p.1 = k) && decide (p.1 ≠ k)) = false := by
      intro p
      by_cases hp : p.1 = k <;> simp [hp]
    simp [this]

theorem off_off [DecidableEq E] (b : PubSub E C) (k : E) :
    (b.off k).off k = b.off k :=
  off_of_equalRange_nil (equalRange_off_self b k)

theorem equalRange_onAll [DecidableEq E] (b : PubSub E C) (k : E)
    (cs : List C) : (b.onAll k cs).equalRange k = b.equalRange k ++ cs := by
  induction cs generalizing b with
  | nil => simp [PubSub.onAll]
  | cons c rest ih =>
      rw [PubSub.onAll, ih, equalRange_on_self, List.append_assoc]
      rfl

theorem runCallbacks_append (k : E) (l₁ l₂ : List (E → σ → Except ε σ))
    (s : σ) : runCallbacks k (l₁ ++ l₂) s
      = (runCallbacks k l₁ s).bind (runCallbacks k l₂) := by
  induction l₁ generalizing s with
  | nil => simp [runCallbacks, Except.bind]
  | cons c rest ih =>
      rw [List.cons_append, runCallbacks, runCallbacks]
      cases c k s with
      | ok t => simp [Except.bind, ih]
      | error e => simp [Except.bind]

/-- C1: subscribing handlers H1, H2, H3 under key `k`, in this order, on a bus
with no entries under `k`, and then publishing once to `k`, invokes exactly H1,
then H2, then H3: the publish is the sequential composition of the three
callbacks in registration order, with no other interleaving. -/
theorem C1_fanout_insertion_order [DecidableEq E]
    (b : PubSub E (E → σ → Except ε σ)) (k : E)
    (c₁ c₂ c₃ : E → σ → Except ε σ) (h : b.equalRange k = []) (s : σ) :
    ((((b.on k c₁).on k c₂).on k c₃).emit k s).1
      = (c₁ k s).bind (fun s₁ => (c₂ k s₁).bind (c₃ k)) := by
  have h3 : (((b.on k c₁).on k c₂).on k c₃).equalRange k = [c₁, c₂, c₃] := by
    rw [equalRange_on_self, equalRange_on_self, equalRange_on_self, h]
    rfl
  simp only [PubSub.emit, h3, runCallbacks]
  cases c₁ k s with
  | error e => rfl
  | ok s₁ =>
      simp only [Except.bind]
      cases c₂ k s₁ with
      | error e => rfl
      | ok s₂ =>
          simp only [Except.bind]
          cases c₃ k s₂ <;> rfl

/-- Witness for C1: three logging handlers under key 5 on a fresh bus; the
publish produces the log [1, 2, 3]. -/
theorem C1_fanout_insertion_order_witness :
    (PubSub.empty : PubSub Nat (Nat → List Nat → Except Empty (List Nat))).equalRange 5 = []
    ∧ ((((PubSub.empty.on 5 (logCb 1)).on 5 (logCb 2)).on 5 (logCb 3)).emit 5
        ([] : List Nat)).1
      = (logCb 1 5 []).bind (fun s₁ => (logCb 2 5 s₁).bind (logCb 3 5))
    ∧ ((((PubSub.empty.on 5 (logCb 1)).on 5 (logCb 2)).on 5 (logCb 3)).emit 5
        ([] : List Nat)).1 = Except.ok [1, 2, 3] :=
  ⟨rfl, C1_fanout_insertion_order PubSub.empty 5 (logCb 1) (logCb 2) (logCb 3) rfl [], rfl⟩

/-- C2 (shared forwarded arguments): two handlers under key 0, a mutable `Nat`
argument starting at 0; the first handler records 0 and increments the argument
in place.  The source `emit` forwards the one argument object through both
calls, so the second handler records 1, not the pre-mutation value 0: the log
of the publish is [0, 1].  Under the copy-per-handler policy the specification
mandates (`emitCopyPolicy`) both handlers would record 0. -/
theorem C2_shared_argument_mutation_visible :
    ((((PubSub.empty : PubSub Nat (Nat → MutWorld → Except Empty MutWorld)).on
          0 observeThenIncr).on 0 observeOnly).emit 0 ((0, []) : MutWorld)).1
      = Except.ok (1, [0, 1])
    ∧ emitCopyPolicy [observeThenIncr, observeOnly] 0 ((0, []) : MutWorld)
      = [Except.ok (1, [0]), Except.ok (0, [0])] :=
  ⟨rfl, rfl⟩

/-- C4: subscribing the callbacks of a list one by one under key `k`, starting
from a bus with no entries under `k`, leaves exactly those callbacks as the
entries under `k`, in order and without any replacement or deduplication (the
list may repeat a callback); the entry count equals the list length, and a
publish to `k` runs exactly those callbacks. -/
theorem C4_subscribe_appends_no_dedup [DecidableEq E]
    (b : PubSub E (E → σ → Except ε σ)) (k : E)
    (cs : List (E → σ → Except ε σ)) (h : b.equalRange k = []) (s : σ) :
    (b.onAll k cs).equalRange k = cs
    ∧ (b.onAll k cs).count k = cs.length
    ∧ ((b.onAll k cs).emit k s).1 = runCallbacks k cs s := by
  have h1 : (b.onAll k cs).equalRange k = cs := by
    rw [equalRange_onAll, h]
    rfl
  refine ⟨h1, ?_, ?_⟩
  · rw [count_eq_length_equalRange, h1]
  · simp [PubSub.emit, h1]

/-- Witness for C4: three subscriptions under key 9 on a fresh bus, the first
two with the same callback value: all three entries are kept and run. -/
theorem C4_subscribe_appends_no_dedup_witness :
    (PubSub.empty : PubSub Nat (Nat → List Nat → Except Empty (List Nat))).equalRange 9 = []
    ∧ (PubSub.empty.onAll 9 [logCb 1, logCb 1, logCb 2]).equalRange 9
        = [logCb 1, logCb 1, logCb 2]
    ∧ (PubSub.empty.onAll 9 [logCb 1, logCb 1, logCb 2]).count 9 = 3
    ∧ ((PubSub.empty.onAll 9 [logCb 1, logCb 1, logCb 2]).emit 9 ([] : List Nat)).1
        = runCallbacks 9 [logCb 1, logCb 1, logCb 2] [] :=
  ⟨rfl, (C4_subscribe_appends_no_dedup PubSub.empty 9 _ rfl []).1,
    (C4_subscribe_appends_no_dedup PubSub.empty 9 _ rfl []).2.1,
    (C4_subscribe_appends_no_dedup PubSub.empty 9 _ rfl []).2.2⟩

/-- C5: for every bus state, `off k` removes every entry under `k`: afterwards
the equal range of `k` is empty, and a publish to `k` invokes zero callbacks —
it returns the world unchanged and throws nothing. -/
theorem C5_off_removes_all [DecidableEq E]
    (b : PubSub E (E → σ → Except ε σ)) (k : E) (s : σ) :
    (b.off k).equalRange k = [] ∧ ((b.off k).emit k s).1 = Except.ok s := by
  refine ⟨equalRange_off_self b k, ?_⟩
  simp [PubSub.emit, equalRange_off_self, runCallbacks]

/-- C6: fail-fast failure propagation: when the callbacks under `k` are
`pre ++ f :: post`, the callbacks of `pre` all succeed, and `f` throws `e`,
then the publish returns exactly `error e` to the caller — the result does not
depend on `post`, so the callbacks after the failing one are never invoked, and
there is no isolation, aggregation or retry. -/
theorem C6_handler_failure_fail_fast [DecidableEq E]
    (b : PubSub E (E → σ → Except ε σ)) (k : E)
    (pre post : List (E → σ → Except ε σ)) (f : E → σ → Except ε σ)
    (s t : σ) (e : ε) (hb : b.equalRange k = pre ++ f :: post)
    (hpre : runCallbacks k pre s = Except.ok t)
    (hf : f k t = Except.error e) :
    (b.emit k s).1 = Except.error e := by
  simp only [PubSub.emit, hb, runCallbacks_append, hpre, runCallbacks, hf,
    Except.bind]

/-- Witness for C6: under key 2 a logging handler, then a handler throwing 7,
then another logging handler; the publish returns `error 7`. -/
theorem C6_handler_failure_fail_fast_witness :
    ((((PubSub.empty : PubSub Nat (Nat → List Nat → Except Nat (List Nat))).on
          2 (okCb 1)).on 2 failCb).on 2 (okCb 3)).equalRange 2
      = [okCb 1, failCb, okCb 3]
    ∧ runCallbacks 2 [okCb 1] ([] : List Nat) = Except.ok [1]
    ∧ failCb 2 [1] = Except.error 7
    ∧ (((((PubSub.empty : PubSub Nat (Nat → List Nat → Except Nat (List Nat))).on
          2 (okCb 1)).on 2 failCb).on 2 (okCb 3)).emit 2 ([] : List Nat)).1
        = Except.error 7 :=
  ⟨rfl, rfl, rfl,
    C6_handler_failure_fail_fast _ 2 [okCb 1] [okCb 3] failCb [] [1] 7
      rfl rfl rfl⟩

/-- C7: key isolation: for distinct keys, adding a subscription under `k₂`
changes neither the equal range of `k₁` nor the outcome of a publish to `k₁`;
a handler registered only under `k₂` is never invoked by a publish to `k₁`. -/
theorem C7_key_isolation [DecidableEq E]
    (b : PubSub E (E → σ → Except ε σ)) {k₁ k₂ : E}
    (c : E → σ → Except ε σ) (h : k₁ ≠ k₂) (s : σ) :
    (b.on k₂ c).equalRange k₁ = b.equalRange k₁
    ∧ ((b.on k₂ c).emit k₁ s).1 = (b.emit k₁ s).1 := by
  have hr := equalRange_on_of_ne b c h
  exact ⟨hr, by simp [PubSub.emit, hr]⟩

/-- Witness for C7: a handler registered only under key 1 is not seen by a
publish to key 0. -/
theorem C7_key_isolation_witness :
    (0 : Nat) ≠ 1
    ∧ ((PubSub.empty : PubSub Nat (Nat → List Nat → Except Empty (List Nat))).on
          1 (logCb 1)).equalRange 0 = PubSub.empty.equalRange 0
    ∧ (((PubSub.empty : PubSub Nat (Nat → List Nat → Except Empty (List Nat))).on
          1 (logCb 1)).emit 0 ([] : List Nat)).1 = (PubSub.empty.emit 0 ([] : List Nat)).1 :=
  ⟨by decide, (C7_key_isolation PubSub.empty (logCb 1) (by decide) []).1,
    (C7_key_isolation PubSub.empty (logCb 1) (by decide) []).2⟩

/-- C8: a publish to a key with zero registered entries is a silent no-op: it
invokes no callback, returns the world unchanged with no error, and the bus
comes back exactly as it was. -/
theorem C8_publish_no_handlers_noop [DecidableEq E]
    (b : PubSub E (E → σ → Except ε σ)) (k : E) (s : σ)
    (h : b.equalRange k = []) : b.emit k s = (Except.ok s, b) := by
  simp [PubSub.emit, h, runCallbacks]

/-- Witness for C8: a bus holding one handler under key 1 publishes to key 0:
nothing runs, nothing fails, the bus is unchanged. -/
theorem C8_publish_no_handlers_noop_witness :
    ((PubSub.empty : PubSub Nat (Nat → List Nat → Except Empty (List Nat))).on
        1 (logCb 1)).equalRange 0 = []
    ∧ ((PubSub.empty : PubSub Nat (Nat → List Nat → Except Empty (List Nat))).on
        1 (logCb 1)).emit 0 ([] : List Nat)
      = (Except.ok [], (PubSub.empty).on 1 (logCb 1)) :=
  ⟨rfl, C8_publish_no_handlers_noop (PubSub.empty.on 1 (logCb 1)) 0 [] rfl⟩

/-- C9: unsubscribe idempotence: `off k` on a bus with no entries under `k`
does not fail and returns the bus exactly unchanged (entries under every other
key untouched), and `off k` composed with itself equals a single `off k`. -/
theorem C9_off_idempotent [DecidableEq E] (b : PubSub E C) (k : E) :
    (b.equalRange k = [] → b.off k = b) ∧ (b.off k).off k = b.off k :=
  ⟨off_of_equalRange_nil, off_off b k⟩

/-- Witness for C9: on a bus holding one entry under key 1, `off 0` is the
identity and `off 0` twice equals `off 0` once. -/
theorem C9_off_idempotent_witness :
    ((PubSub.empty : PubSub Nat Nat).on 1 42).off 0 = PubSub.empty.on 1 42
    ∧ ((((PubSub.empty : PubSub Nat Nat).on 1 42).off 0).off 0
        = ((PubSub.empty : PubSub Nat Nat).on 1 42).off 0) :=
  ⟨(C9_off_idempotent (PubSub.empty.on 1 42) 0).1 rfl,
    (C9_off_idempotent (PubSub.empty.on 1 42) 0).2⟩

/-- C10: frame property of `emit`: the method body only reads the `callbacks`
member (handlers in this model act on the world alone, matching the proviso
that no handler re-entrantly mutates the bus), so the subscription collection
after a publish equals the one before it, entry for entry, and every key's
equal range is unchanged. -/
theorem C10_emit_preserves_callbacks [DecidableEq E]
    (b : PubSub E (E → σ → Except ε σ)) (k : E) (s : σ) :
    ((b.emit k s).2).callbacks = b.callbacks
    ∧ ∀ k₀ : E, ((b.emit k s).2).equalRange k₀ = b.equalRange k₀ :=
  ⟨rfl, fun _ => rfl⟩

end Awkward
